import Mathlib

/-!
Verification of the checklister application core: the item/checklist data
model, the deadline-aware order engine, the archive lifecycle, deadline
assignment, persisted-data normalization (all from `frontend/src/App.tsx`)
and the delete-checklist endpoint (from `backend/src/server.ts`).

Machine integers do not occur in the modelled slice; strings are modelled
as Lean strings (the JavaScript `localeCompare` comparator is modelled as
code-point lexicographic comparison, which agrees with it on the
`YYYY-MM-DD` digit strings it is applied to). JavaScript's stable
`Array.prototype.sort` is modelled by stable insertion sort.
-/

/-- Sort modes of a checklist, from the `SortMode` union type. -/
inductive SortMode
  | manual
  | deadlineAsc
  | deadlineDesc
deriving DecidableEq

/-- A checklist item, from the `ChecklistItem` type: `deadline` is
`string | null`, modelled as `Option String`. -/
structure ChecklistItem where
  id : String
  text : String
  done : Bool
  deadline : Option String
deriving DecidableEq

/-- JavaScript truthiness of `item.deadline` as used by the filters in
`sortItems`: truthy exactly when the deadline is a non-null, non-empty
string. -/
def deadlineTruthy (item : ChecklistItem) : Bool :=
  match item.deadline with
  | none => false
  | some s => s != ""

/-- The comparison key `a.deadline ?? ''` used by the sort comparator in
`sortItems`. -/
def deadlineKey (item : ChecklistItem) : String :=
  item.deadline.getD ""

/-- The order induced by the comparator
`(a, b) => (a.deadline ?? '').localeCompare(b.deadline ?? '')`. -/
def deadlineLe (a b : ChecklistItem) : Prop :=
  deadlineKey a ≤ deadlineKey b

instance : DecidableRel deadlineLe := fun a b =>
  inferInstanceAs (Decidable (deadlineKey a ≤ deadlineKey b))

instance : IsTotal ChecklistItem deadlineLe :=
  ⟨fun a b => le_total (deadlineKey a) (deadlineKey b)⟩

instance : IsTrans ChecklistItem deadlineLe :=
  ⟨fun _ _ _ h h2 => le_trans h h2⟩

/-- The order engine `sortItems` from `frontend/src/App.tsx` (lines 63-70):
manual mode returns the items unchanged; otherwise the items whose deadline
is truthy are stably sorted by the deadline comparator (reversed for
descending) and the remaining items are appended after in original order. -/
def sortItems (items : List ChecklistItem) (mode : SortMode) : List ChecklistItem :=
  match mode with
  | .manual => items
  | _ =>
    let withDeadline := items.filter deadlineTruthy
    let withoutDeadline := items.filter fun item => !deadlineTruthy item
    let sorted := withDeadline.insertionSort deadlineLe
    let directed := if mode = SortMode.deadlineDesc then sorted.reverse else sorted
    directed ++ withoutDeadline

/-- C1: under mode manual, sortItems returns the list unchanged; under
deadline-asc it returns the truthy-deadline items sorted ascending by
lexicographic deadline comparison followed by the deadline-less items in
their original relative order; under deadline-desc the with-deadline
prefix is the exact reverse of the deadline-asc prefix and the
deadline-less items are appended after in the same original relative
order. -/
theorem sortItems_matches_reference (items : List ChecklistItem) :
    sortItems items SortMode.manual = items ∧
    ∃ sortedWith : List ChecklistItem,
      sortedWith.Perm (items.filter deadlineTruthy) ∧
      sortedWith.Sorted deadlineLe ∧
      sortItems items SortMode.deadlineAsc =
        sortedWith ++ items.filter (fun item => !deadlineTruthy item) ∧
      sortItems items SortMode.deadlineDesc =
        sortedWith.reverse ++ items.filter (fun item => !deadlineTruthy item) := by
  refine ⟨rfl, (items.filter deadlineTruthy).insertionSort deadlineLe, ?_, ?_, rfl, rfl⟩
  · exact List.perm_insertionSort deadlineLe _
  · exact List.sorted_insertionSort deadlineLe _

/-- C10: for every item list and sort mode, the output of sortItems is a
permutation of its input, and an item whose deadline is the empty string
is classified as an item without a deadline (JavaScript truthiness). -/
theorem sortItems_perm_of_input (items : List ChecklistItem) (mode : SortMode) :
    (sortItems items mode).Perm items ∧
    ∀ item : ChecklistItem, item.deadline = some "" → deadlineTruthy item = false := by
  constructor
  · cases mode with
    | manual => exact List.Perm.refl items
    | deadlineAsc =>
      exact ((List.perm_insertionSort deadlineLe _).append_right _).trans
        (List.filter_append_perm _ _)
    | deadlineDesc =>
      exact (((List.reverse_perm _).trans
        (List.perm_insertionSort deadlineLe _)).append_right _).trans
        (List.filter_append_perm _ _)
  · intro item h
    simp [deadlineTruthy, h]

/-- Witness for C10 at a concrete empty-string-deadline item. -/
theorem sortItems_perm_of_input_witness :
    deadlineTruthy { id := "a", text := "t", done := false, deadline := some "" } = false :=
  (sortItems_perm_of_input [] SortMode.manual).2
    { id := "a", text := "t", done := false, deadline := some "" } rfl

/-- A checklist in its in-app (normalized) shape, from the `Checklist`
type: the optional fields carry the defaults that `normalizeChecklist`
and `handleCreateChecklist` always establish; `archivedAt` is
`string | null`, modelled as `Option String`. -/
structure Checklist where
  id : String
  title : String
  items : List ChecklistItem
  sortMode : SortMode
  pinned : Bool
  archived : Bool
  archivedAt : Option String
deriving DecidableEq

/-- Predicate `isArchivedList` (lines 327-330): the checklist with the
given id is archived when its `archived` flag is set or its `archivedAt`
field is truthy (a non-null, non-empty string); a missing checklist is
not archived. -/
def isArchivedList (ls : List Checklist) (listId : String) : Bool :=
  match ls.find? (fun l => l.id == listId) with
  | none => false
  | some t => t.archived || (match t.archivedAt with | none => false | some s => s != "")

/-- Handler `handleToggleItem` (lines 373-385): rejected while archived,
otherwise flips the `done` flag of the matching item of the matching
list. -/
def handleToggleItem (ls : List Checklist) (listId itemId : String) : List Checklist :=
  if isArchivedList ls listId then ls
  else
    ls.map fun list =>
      if list.id == listId then
        { list with
            items := list.items.map fun item =>
              if item.id == itemId then { item with done := !item.done } else item }
      else list

/-- JavaScript String.prototype.trim: strips leading and trailing
whitespace (modelled with the ASCII whitespace class, which is what the
modelled code can produce). -/
def jsTrim (s : String) : String :=
  String.mk (((s.data.dropWhile Char.isWhitespace).reverse.dropWhile Char.isWhitespace).reverse)

/-- Handler `handleAddItem` (lines 359-371): rejected while archived; a
draft that trims to empty is ignored; otherwise the trimmed text is
appended as a fresh not-done item (its generated id is a parameter). -/
def handleAddItem (ls : List Checklist) (listId draftText newId : String) : List Checklist :=
  if isArchivedList ls listId then ls
  else
    let text := jsTrim draftText
    if text == "" then ls
    else
      ls.map fun list =>
        if list.id == listId then
          { list with items := list.items ++ [{ id := newId, text := text, done := false, deadline := none }] }
        else list

/-- Handler `handleDeleteItem` (lines 387-394): rejected while archived,
otherwise removes the matching item from the matching list. -/
def handleDeleteItem (ls : List Checklist) (listId itemId : String) : List Checklist :=
  if isArchivedList ls listId then ls
  else
    ls.map fun list =>
      if list.id == listId then
        { list with items := list.items.filter fun item => item.id != itemId }
      else list

/-- Handler `handleClearCompleted` (lines 408-415): rejected while
archived, otherwise removes all done items from the matching list. -/
def handleClearCompleted (ls : List Checklist) (listId : String) : List Checklist :=
  if isArchivedList ls listId then ls
  else
    ls.map fun list =>
      if list.id == listId then
        { list with items := list.items.filter fun item => !item.done }
      else list

/-- Handler `handleSortChange` (lines 501-506): rejected while archived,
otherwise sets the sort mode of the matching list. -/
def handleSortChange (ls : List Checklist) (listId : String) (mode : SortMode) : List Checklist :=
  if isArchivedList ls listId then ls
  else ls.map fun list => if list.id == listId then { list with sortMode := mode } else list

/-- The per-list update applied by `handleArchiveChecklist` (lines
417-428): sets `archived`, stamps `archivedAt` with the current ISO
timestamp and clears `pinned` on the matching list. -/
def archiveList (listId now : String) (l : Checklist) : Checklist :=
  if l.id == listId then { l with archived := true, archivedAt := some now, pinned := false }
  else l

/-- Handler `handleArchiveChecklist` (lines 417-428), restricted to its
checklist-state update (the collapsed-view and toast updates touch only
presentation state). The timestamp produced by `new Date().toISOString()`
is a parameter. -/
def handleArchiveChecklist (ls : List Checklist) (listId now : String) : List Checklist :=
  ls.map (archiveList listId now)

/-- The per-list update applied by `handleUnarchiveChecklist` (lines
430-436): clears `archived` and `archivedAt` on the matching list. -/
def unarchiveList (listId : String) (l : Checklist) : Checklist :=
  if l.id == listId then { l with archived := false, archivedAt := none } else l

/-- Handler `handleUnarchiveChecklist` (lines 430-436). -/
def handleUnarchiveChecklist (ls : List Checklist) (listId : String) : List Checklist :=
  ls.map (unarchiveList listId)

/-- The sort mode lookup `checklists.find(...)?.sortMode ?? 'manual'`
from `handleDragEnd` (line 510). -/
def listSortMode (ls : List Checklist) (listId : String) : SortMode :=
  ((ls.find? (fun l => l.id == listId)).map Checklist.sortMode).getD SortMode.manual

/-- The dnd-kit `arrayMove` helper as invoked by `handleDragEnd`: copy
with the element at index `i` removed and re-inserted at index `j`.
Both call-site indices come from successful `findIndex` calls, so the
negative-index branch of the library function is unreachable. -/
def arrayMove (l : List α) (i j : Nat) : List α :=
  match l.get? i with
  | none => l
  | some x => (l.eraseIdx i).insertIdx j x

/-- Handler `handleDragEnd` (lines 508-524): rejected while archived or
when the list's sort mode is not manual; a drop without a target or onto
itself is ignored; otherwise the dragged item is moved to the index of
the drop target via `arrayMove` (items absent from the list leave it
unchanged). The drag event is its `active.id` and optional `over.id`. -/
def handleDragEnd (ls : List Checklist) (listId activeId : String)
    (over : Option String) : List Checklist :=
  if isArchivedList ls listId then ls
  else if listSortMode ls listId ≠ SortMode.manual then ls
  else
    match over with
    | none => ls
    | some overId =>
      if activeId == overId then ls
      else
        ls.map fun list =>
          if list.id == listId then
            match list.items.findIdx? (fun item => item.id == activeId),
                list.items.findIdx? (fun item => item.id == overId) with
            | some oldIndex, some newIndex =>
              { list with items := arrayMove list.items oldIndex newIndex }
            | _, _ => list
          else list

/-- The strict deadline format test `/^\d{4}-\d{2}-\d{2}$/` from
`handleSaveDeadline` (line 464). -/
def deadlineFormatOk (s : String) : Bool :=
  match s.data with
  | [y1, y2, y3, y4, h1, m1, m2, h2, d1, d2] =>
    y1.isDigit && y2.isDigit && y3.isDigit && y4.isDigit && (h1 == '-') &&
      m1.isDigit && m2.isDigit && (h2 == '-') && d1.isDigit && d2.isDigit
  | _ => false

/-- The alert message shown by `handleSaveDeadline` on a malformed
draft. -/
def deadlineAlertMsg : String :=
  "Please use the YYYY-MM-DD format (YYYY-MM-DD) for deadlines."

/-- The per-item deadline update used by `handleSaveDeadline` and
`handleClearDeadline`. -/
def setItemDeadline (itemId : String) (value : Option String) (item : ChecklistItem) : ChecklistItem :=
  if item.id == itemId then { item with deadline := value } else item

/-- The per-list deadline update used by `handleSaveDeadline` and
`handleClearDeadline`. -/
def setListItemDeadline (listId itemId : String) (value : Option String) (list : Checklist) : Checklist :=
  if list.id == listId then { list with items := list.items.map (setItemDeadline itemId value) }
  else list

/-- Handler `handleSaveDeadline` (lines 460-480): rejected while
archived; a trimmed draft that is non-empty and fails the strict format
test triggers the alert and leaves the state alone; otherwise the trimmed
draft (or null when empty) becomes the item's deadline. Returns the new
state together with the alert message, if any. -/
def handleSaveDeadline (ls : List Checklist) (listId itemId draftRaw : String) :
    List Checklist × Option String :=
  if isArchivedList ls listId then (ls, none)
  else
    let draft := jsTrim draftRaw
    if draft ≠ "" ∧ deadlineFormatOk draft = false then (ls, some deadlineAlertMsg)
    else
      let value : Option String := if draft == "" then none else some draft
      (ls.map (setListItemDeadline listId itemId value), none)

/-- Handler `handleClearDeadline` (lines 482-499), restricted to its
checklist-state update (the draft and open-editor updates touch only
presentation state): rejected while archived, otherwise nulls the
matching item's deadline. -/
def handleClearDeadline (ls : List Checklist) (listId itemId : String) : List Checklist :=
  if isArchivedList ls listId then ls
  else ls.map (setListItemDeadline listId itemId none)

/-- C2: while a checklist is archived, every mutating operation on it —
toggle item, add item, delete item, clear completed, change sort mode,
drag reorder, and set or clear a deadline — leaves the entire checklist
state unchanged (and the save raises no alert). -/
theorem archived_checklist_immutable (ls : List Checklist)
    (listId itemId draft newId : String) (mode : SortMode)
    (activeId : String) (over : Option String)
    (h : isArchivedList ls listId = true) :
    handleToggleItem ls listId itemId = ls ∧
    handleAddItem ls listId draft newId = ls ∧
    handleDeleteItem ls listId itemId = ls ∧
    handleClearCompleted ls listId = ls ∧
    handleSortChange ls listId mode = ls ∧
    handleDragEnd ls listId activeId over = ls ∧
    handleSaveDeadline ls listId itemId draft = (ls, none) ∧
    handleClearDeadline ls listId itemId = ls := by
  refine ⟨?_, ?_, ?_, ?_, ?_, ?_, ?_, ?_⟩ <;>
    simp [handleToggleItem, handleAddItem, handleDeleteItem, handleClearCompleted,
      handleSortChange, handleDragEnd, handleSaveDeadline, handleClearDeadline, h]

/-- An archived one-checklist state used as a concrete witness input. -/
def archivedStateEx : List Checklist :=
  [{ id := "L", title := "T",
     items := [{ id := "i", text := "task", done := false, deadline := some "2024-01-01" }],
     sortMode := SortMode.manual, pinned := false, archived := true,
     archivedAt := some "2024-01-02T00:00:00.000Z" }]

/-- Witness for C2 on a concrete archived checklist. -/
theorem archived_checklist_immutable_witness :
    handleToggleItem archivedStateEx "L" "i" = archivedStateEx ∧
    handleAddItem archivedStateEx "L" "bogus" "n1" = archivedStateEx ∧
    handleDeleteItem archivedStateEx "L" "i" = archivedStateEx ∧
    handleClearCompleted archivedStateEx "L" = archivedStateEx ∧
    handleSortChange archivedStateEx "L" SortMode.deadlineAsc = archivedStateEx ∧
    handleDragEnd archivedStateEx "L" "i" (some "j") = archivedStateEx ∧
    handleSaveDeadline archivedStateEx "L" "i" "bogus" = (archivedStateEx, none) ∧
    handleClearDeadline archivedStateEx "L" "i" = archivedStateEx :=
  archived_checklist_immutable archivedStateEx "L" "i" "bogus" "n1"
    SortMode.deadlineAsc "i" (some "j") (by decide)

/-- C3: a drag-end on a checklist whose sort mode is not manual leaves the
state unchanged, and any state change through the drag handler can only
happen when the list's sort mode is manual and it is not archived. -/
theorem dragEnd_requires_manual (ls : List Checklist) (listId activeId : String)
    (over : Option String) :
    (listSortMode ls listId ≠ SortMode.manual → handleDragEnd ls listId activeId over = ls) ∧
    (handleDragEnd ls listId activeId over ≠ ls →
      listSortMode ls listId = SortMode.manual ∧ isArchivedList ls listId = false) := by
  constructor
  · intro h
    by_cases hArch : isArchivedList ls listId <;> simp [handleDragEnd, hArch, h]
  · intro hne
    by_cases hArch : isArchivedList ls listId
    · exact absurd (by simp [handleDragEnd, hArch]) hne
    · by_cases hMode : listSortMode ls listId = SortMode.manual
      · exact ⟨hMode, by simpa using hArch⟩
      · exact absurd (by simp [handleDragEnd, hMode]) hne

/-- A non-archived two-item checklist in deadline-asc mode, used as a
concrete witness input. -/
def nonManualStateEx : List Checklist :=
  [{ id := "L", title := "T",
     items := [{ id := "i", text := "one", done := false, deadline := some "2024-03-01" },
               { id := "j", text := "two", done := false, deadline := none }],
     sortMode := SortMode.deadlineAsc, pinned := false, archived := false, archivedAt := none }]

/-- Witness for C3: dragging under deadline-asc is a no-op. -/
theorem dragEnd_requires_manual_witness :
    handleDragEnd nonManualStateEx "L" "i" (some "j") = nonManualStateEx :=
  (dragEnd_requires_manual nonManualStateEx "L" "i" (some "j")).1 (by decide)

/-- Archiving then restoring a single checklist preserves its items. -/
theorem unarchive_archive_items (listId now : String) (l : Checklist) :
    (unarchiveList listId (archiveList listId now l)).items = l.items := by
  by_cases h : l.id = listId <;> simp [archiveList, unarchiveList, h]

/-- C6: applying the archive operation and then the restore operation to
any checklist state yields, list by list, items arrays identical in order
and content to those before archiving. -/
theorem archive_restore_preserves_items (ls : List Checklist) (listId now : String) :
    (handleUnarchiveChecklist (handleArchiveChecklist ls listId now) listId).map Checklist.items
      = ls.map Checklist.items := by
  induction ls with
  | nil => rfl
  | cons l rest ih =>
    simp only [handleArchiveChecklist, handleUnarchiveChecklist, List.map_cons] at ih ⊢
    rw [unarchive_archive_items listId now l, ih]

/-- C7: the archive transition sets the archived flag, stamps a non-null
archivedAt and clears pinned; the restore transition clears the archived
flag and archivedAt; neither transition touches any other field of the
matching checklist nor any other checklist, and the state-level handlers
are exactly the per-list transitions mapped over the state. -/
theorem archive_restore_field_effects (l : Checklist) (listId now : String) :
    (l.id = listId →
      (archiveList listId now l).archived = true ∧
      (archiveList listId now l).archivedAt = some now ∧
      (archiveList listId now l).pinned = false ∧
      (archiveList listId now l).id = l.id ∧
      (archiveList listId now l).title = l.title ∧
      (archiveList listId now l).items = l.items ∧
      (archiveList listId now l).sortMode = l.sortMode ∧
      (unarchiveList listId l).archived = false ∧
      (unarchiveList listId l).archivedAt = none ∧
      (unarchiveList listId l).id = l.id ∧
      (unarchiveList listId l).title = l.title ∧
      (unarchiveList listId l).items = l.items ∧
      (unarchiveList listId l).sortMode = l.sortMode ∧
      (unarchiveList listId l).pinned = l.pinned) ∧
    (l.id ≠ listId → archiveList listId now l = l ∧ unarchiveList listId l = l) ∧
    (∀ ls : List Checklist,
      handleArchiveChecklist ls listId now = ls.map (archiveList listId now) ∧
      handleUnarchiveChecklist ls listId = ls.map (unarchiveList listId)) := by
  refine ⟨fun h => ?_, fun h => ?_, fun ls => ⟨rfl, rfl⟩⟩
  · simp [archiveList, unarchiveList, h]
  · simp [archiveList, unarchiveList, h]

/-- A non-archived pinned checklist used as a concrete witness input. -/
def plainListEx : Checklist :=
  { id := "L", title := "T",
    items := [{ id := "i", text := "task", done := true, deadline := none }],
    sortMode := SortMode.deadlineDesc, pinned := true, archived := false, archivedAt := none }

/-- Witness for C7 on a concrete checklist whose id matches. -/
theorem archive_restore_field_effects_witness :
    (archiveList "L" "2024-05-05T10:00:00.000Z" plainListEx).archived = true ∧
    (archiveList "L" "2024-05-05T10:00:00.000Z" plainListEx).archivedAt
      = some "2024-05-05T10:00:00.000Z" ∧
    (archiveList "L" "2024-05-05T10:00:00.000Z" plainListEx).pinned = false ∧
    (archiveList "L" "2024-05-05T10:00:00.000Z" plainListEx).id = plainListEx.id ∧
    (archiveList "L" "2024-05-05T10:00:00.000Z" plainListEx).title = plainListEx.title ∧
    (archiveList "L" "2024-05-05T10:00:00.000Z" plainListEx).items = plainListEx.items ∧
    (archiveList "L" "2024-05-05T10:00:00.000Z" plainListEx).sortMode = plainListEx.sortMode ∧
    (unarchiveList "L" plainListEx).archived = false ∧
    (unarchiveList "L" plainListEx).archivedAt = none ∧
    (unarchiveList "L" plainListEx).id = plainListEx.id ∧
    (unarchiveList "L" plainListEx).title = plainListEx.title ∧
    (unarchiveList "L" plainListEx).items = plainListEx.items ∧
    (unarchiveList "L" plainListEx).sortMode = plainListEx.sortMode ∧
    (unarchiveList "L" plainListEx).pinned = plainListEx.pinned :=
  (archive_restore_field_effects plainListEx "L" "2024-05-05T10:00:00.000Z").1 rfl

/-- A JavaScript Date value as observed by the modelled code: the string
returned by toISOString(), which renders the instant in UTC, and the
local calendar components returned by getFullYear, getMonth()+1 and
getDate(). -/
structure JsDate where
  isoString : String
  localYear : Nat
  localMonth : Nat
  localDay : Nat

/-- The padStart(2, chr 48) calls in toDeadlineString. -/
def padStart2 (s : String) : String :=
  if s.length = 0 then "00" else if s.length = 1 then "0" ++ s else s

/-- Function toDeadlineString (lines 86-91): formats a Date's local
calendar day as YYYY-MM-DD (year unpadded, month and day padded). -/
def toDeadlineString (d : JsDate) : String :=
  toString d.localYear ++ "-" ++ padStart2 (toString d.localMonth) ++ "-"
    ++ padStart2 (toString d.localDay)

/-- The date part of an ISO timestamp, i.e. the index-0 component of the
split on the character T computed in isDueToday (line 123): the prefix
of the string before its first T (the whole string when T is absent). -/
def isoDatePart (iso : String) : String :=
  String.mk (iso.data.takeWhile fun c => c != 'T')

/-- Function isDueToday (lines 119-126): a falsy (null or empty) deadline
is never due today; otherwise the deadline string is compared for
equality with the date part of the current toISOString() value. -/
def isDueToday (now : JsDate) (deadline : Option String) : Bool :=
  match deadline with
  | none => false
  | some d => if d == "" then false else d == isoDatePart now.isoString

/-- A clock at UTC 2024-03-11T01:30Z in a timezone whose local calendar
date is still 2024-03-10 (for example UTC-7). -/
def lateEveningClock : JsDate :=
  { isoString := "2024-03-11T01:30:00.000Z", localYear := 2024, localMonth := 3, localDay := 10 }

/-- Counterexample to C4: at this clock a deadline equal to the local
date string 2024-03-10 is not reported as due today — the code compares
against the UTC date taken from toISOString(), which is 2024-03-11. -/
theorem isDueToday_utc_counterexample :
    toDeadlineString lateEveningClock = "2024-03-10" ∧
    isDueToday lateEveningClock (some "2024-03-10") = false ∧
    isDueToday lateEveningClock (some "2024-03-11") = true := by
  refine ⟨rfl, ?_, ?_⟩ <;> decide

/-- C4 amended: isDueToday returns true exactly when the deadline is a
non-empty string equal to the YYYY-MM-DD date part of the current
toISOString() value — the UTC calendar date, not the local one (null and
empty deadlines are never due today). -/
theorem isDueToday_iff_utc_date (now : JsDate) (deadline : Option String) :
    isDueToday now deadline = true ↔
      ∃ s : String, deadline = some s ∧ s ≠ "" ∧ s = isoDatePart now.isoString := by
  cases deadline with
  | none => simp [isDueToday]
  | some d => by_cases h : d = "" <;> simp [isDueToday, h]

/-- Specification predicate for the deadline-editing claims: the state
after is the state before with exactly the deadline of item itemId inside
checklist listId set to the given value, every other field, item and
checklist being untouched. -/
def DeadlineSet (ls ls2 : List Checklist) (listId itemId : String) (v : Option String) : Prop :=
  ls2.length = ls.length ∧
  ∀ i : Nat, ∀ l l2 : Checklist, ls[i]? = some l → ls2[i]? = some l2 →
    (l.id ≠ listId → l2 = l) ∧
    (l.id = listId →
      l2.id = l.id ∧ l2.title = l.title ∧ l2.sortMode = l.sortMode ∧ l2.pinned = l.pinned ∧
      l2.archived = l.archived ∧ l2.archivedAt = l.archivedAt ∧
      l2.items.length = l.items.length ∧
      ∀ j : Nat, ∀ it it2 : ChecklistItem,
        l.items[j]? = some it → l2.items[j]? = some it2 →
        (it.id ≠ itemId → it2 = it) ∧
        (it.id = itemId →
          it2.id = it.id ∧ it2.text = it.text ∧ it2.done = it.done ∧ it2.deadline = v))

/-- Mapping the per-list deadline update over a state realizes the
DeadlineSet specification. -/
theorem deadlineSet_map (ls : List Checklist) (listId itemId : String) (v : Option String) :
    DeadlineSet ls (ls.map (setListItemDeadline listId itemId v)) listId itemId v := by
  refine ⟨by simp, ?_⟩
  intro i l l2 hl hl2
  rw [List.getElem?_map, hl] at hl2
  simp only [Option.map_some'] at hl2
  obtain rfl : setListItemDeadline listId itemId v l = l2 := by injection hl2
  constructor
  · intro hid
    simp [setListItemDeadline, hid]
  · intro hid
    refine ⟨by simp [setListItemDeadline, hid], by simp [setListItemDeadline, hid],
      by simp [setListItemDeadline, hid], by simp [setListItemDeadline, hid],
      by simp [setListItemDeadline, hid], by simp [setListItemDeadline, hid],
      by simp [setListItemDeadline, hid], ?_⟩
    intro j it it2 hit hit2
    simp only [setListItemDeadline, hid, beq_self_eq_true, if_true] at hit2
    rw [List.getElem?_map, hit] at hit2
    simp only [Option.map_some'] at hit2
    obtain rfl : setItemDeadline itemId v it = it2 := by injection hit2
    constructor
    · intro hiid
      simp [setItemDeadline, hiid]
    · intro hiid
      refine ⟨by simp [setItemDeadline, hiid], by simp [setItemDeadline, hiid],
        by simp [setItemDeadline, hiid], by simp [setItemDeadline, hiid]⟩

/-- A non-archived checklist whose single item carries a deadline, used
for the C5 counterexample and witness. -/
def deadlineStateEx : List Checklist :=
  [{ id := "L", title := "T",
     items := [{ id := "i", text := "task", done := false, deadline := some "2024-01-01" }],
     sortMode := SortMode.manual, pinned := false, archived := false, archivedAt := none }]

/-- Counterexample to C5: the one-space draft is a non-empty string that
does not match the strict YYYY-MM-DD format, yet saving it raises no
message and clears the item's prior deadline — the code validates the
trimmed draft, and a draft trimming to empty counts as clearing. -/
theorem saveDeadline_whitespace_counterexample :
    (" " ≠ "" ∧ deadlineFormatOk " " = false) ∧
    (handleSaveDeadline deadlineStateEx "L" "i" " ").2 = none ∧
    (handleSaveDeadline deadlineStateEx "L" "i" " ").1 ≠ deadlineStateEx := by
  refine ⟨⟨by decide, by decide⟩, by decide, by decide⟩

/-- C5 amended: on a non-archived checklist, a draft whose trimmed value
is non-empty and fails the strict YYYY-MM-DD test raises the alert
message and leaves the entire state unchanged; a trimmed draft matching
the format is stored as the item's deadline with everything else
untouched; a draft trimming to empty — like the clear operation — sets
the item's deadline to null with everything else untouched. -/
theorem saveDeadline_validation (ls : List Checklist) (listId itemId draftRaw : String)
    (hArch : isArchivedList ls listId = false) :
    ((jsTrim draftRaw ≠ "" ∧ deadlineFormatOk (jsTrim draftRaw) = false) →
      handleSaveDeadline ls listId itemId draftRaw = (ls, some deadlineAlertMsg)) ∧
    (deadlineFormatOk (jsTrim draftRaw) = true →
      (handleSaveDeadline ls listId itemId draftRaw).2 = none ∧
      DeadlineSet ls (handleSaveDeadline ls listId itemId draftRaw).1
        listId itemId (some (jsTrim draftRaw))) ∧
    (jsTrim draftRaw = "" →
      (handleSaveDeadline ls listId itemId draftRaw).2 = none ∧
      DeadlineSet ls (handleSaveDeadline ls listId itemId draftRaw).1 listId itemId none) ∧
    DeadlineSet ls (handleClearDeadline ls listId itemId) listId itemId none := by
  refine ⟨?_, ?_, ?_, ?_⟩
  · rintro ⟨h1, h2⟩
    simp [handleSaveDeadline, hArch, h1, h2]
  · intro hfmt
    have hne : jsTrim draftRaw ≠ "" := by
      intro h0
      rw [h0] at hfmt
      exact absurd hfmt (by decide)
    have hres : handleSaveDeadline ls listId itemId draftRaw
        = (ls.map (setListItemDeadline listId itemId (some (jsTrim draftRaw))), none) := by
      simp [handleSaveDeadline, hArch, hfmt, hne]
    rw [hres]
    exact ⟨rfl, deadlineSet_map ls listId itemId (some (jsTrim draftRaw))⟩
  · intro hempty
    have hres : handleSaveDeadline ls listId itemId draftRaw
        = (ls.map (setListItemDeadline listId itemId none), none) := by
      simp [handleSaveDeadline, hArch, hempty]
    rw [hres]
    exact ⟨rfl, deadlineSet_map ls listId itemId none⟩
  · have hres : handleClearDeadline ls listId itemId
        = ls.map (setListItemDeadline listId itemId none) := by
      simp [handleClearDeadline, hArch]
    rw [hres]
    exact deadlineSet_map ls listId itemId none

/-- Witness for C5 amended: a well-formed draft is stored on the concrete
state. -/
theorem saveDeadline_validation_witness :
    (handleSaveDeadline deadlineStateEx "L" "i" "2024-02-03").2 = none ∧
    DeadlineSet deadlineStateEx (handleSaveDeadline deadlineStateEx "L" "i" "2024-02-03").1
      "L" "i" (some (jsTrim "2024-02-03")) :=
  (saveDeadline_validation deadlineStateEx "L" "i" "2024-02-03" (by decide)).2.1 (by decide)

/-- A raw persisted checklist item as parsed from storage: the deadline
field distinguishes a missing field (outer none) from an explicit null
(inner none). -/
structure RawChecklistItem where
  id : String
  text : String
  done : Bool
  deadline : Option (Option String)
deriving DecidableEq

/-- The items field of a raw persisted checklist: either a JSON array of
raw items or any non-array value — the Array.isArray test in
normalizeChecklist depends only on this distinction. -/
inductive RawItemsField
  | arr (items : List RawChecklistItem)
  | notArray
deriving DecidableEq

/-- A raw persisted checklist: every optional field distinguishes missing
(none) from present. -/
structure RawChecklist where
  id : String
  title : String
  items : RawItemsField
  sortMode : Option SortMode
  pinned : Option Bool
  archived : Option Bool
  archivedAt : Option (Option String)
deriving DecidableEq

/-- Function normalizeChecklistItem (lines 49-52): a missing deadline
becomes an explicit null. -/
def normalizeChecklistItem (item : RawChecklistItem) : ChecklistItem :=
  { id := item.id, text := item.text, done := item.done, deadline := item.deadline.getD none }

/-- Function normalizeChecklist (lines 54-61): missing sortMode, pinned,
archived and archivedAt fields default to manual, false, false and null;
a non-array items field becomes the empty items list, an array is
normalized element-wise. -/
def normalizeChecklist (list : RawChecklist) : Checklist :=
  { id := list.id, title := list.title,
    sortMode := list.sortMode.getD SortMode.manual,
    pinned := list.pinned.getD false,
    archived := list.archived.getD false,
    archivedAt := list.archivedAt.getD none,
    items := match list.items with
      | .arr items => items.map normalizeChecklistItem
      | .notArray => [] }

/-- The observable outcome of reading the storage key and JSON-parsing
it, as consumed by loadChecklists: the key may be absent (or hold a falsy
string), the raw string may fail to parse, or it parses to a non-array or
to an array of raw checklists. -/
inductive StoredValue
  | absent
  | invalidJson
  | jsonNonArray
  | jsonArray (lists : List RawChecklist)

/-- Function loadChecklists (lines 93-103) above the storage/parse
boundary: absent, unparsable and non-array stored values fall back to the
empty state; an array is normalized element-wise. -/
def loadChecklists (stored : StoredValue) : List Checklist :=
  match stored with
  | .absent => []
  | .invalidJson => []
  | .jsonNonArray => []
  | .jsonArray lists => lists.map normalizeChecklist

/-- C8: loading persisted checklists is a total function — an absent,
unparsable or non-array stored value yields the empty list; an array is
normalized element-wise; normalization fills the defaults manual, false,
false, null for missing sortMode, pinned, archived, archivedAt, empties a
non-array items field, and nulls a missing item deadline. -/
theorem loadChecklists_tolerates_malformed :
    loadChecklists StoredValue.absent = [] ∧
    loadChecklists StoredValue.invalidJson = [] ∧
    loadChecklists StoredValue.jsonNonArray = [] ∧
    (∀ lists : List RawChecklist,
      loadChecklists (StoredValue.jsonArray lists) = lists.map normalizeChecklist) ∧
    (∀ list : RawChecklist,
      (normalizeChecklist list).id = list.id ∧
      (normalizeChecklist list).title = list.title ∧
      (list.sortMode = none → (normalizeChecklist list).sortMode = SortMode.manual) ∧
      (list.pinned = none → (normalizeChecklist list).pinned = false) ∧
      (list.archived = none → (normalizeChecklist list).archived = false) ∧
      (list.archivedAt = none → (normalizeChecklist list).archivedAt = none) ∧
      (list.items = RawItemsField.notArray → (normalizeChecklist list).items = []) ∧
      (∀ items, list.items = RawItemsField.arr items →
        (normalizeChecklist list).items = items.map normalizeChecklistItem)) ∧
    (∀ item : RawChecklistItem, item.deadline = none →
      (normalizeChecklistItem item).deadline = none) := by
  refine ⟨rfl, rfl, rfl, fun lists => rfl, fun list => ?_, fun item h => ?_⟩
  · exact ⟨rfl, rfl, fun h => by simp [normalizeChecklist, h],
      fun h => by simp [normalizeChecklist, h], fun h => by simp [normalizeChecklist, h],
      fun h => by simp [normalizeChecklist, h], fun h => by simp [normalizeChecklist, h],
      fun items h => by simp [normalizeChecklist, h]⟩
  · simp [normalizeChecklistItem, h]

/-- A raw checklist with every optional field missing and a non-array
items field. -/
def bareRawChecklist : RawChecklist :=
  { id := "r", title := "Raw", items := RawItemsField.notArray,
    sortMode := none, pinned := none, archived := none, archivedAt := none }

/-- Witness for C8: the bare raw checklist normalizes to the documented
defaults. -/
theorem loadChecklists_tolerates_malformed_witness :
    (normalizeChecklist bareRawChecklist).sortMode = SortMode.manual ∧
    (normalizeChecklist bareRawChecklist).pinned = false ∧
    (normalizeChecklist bareRawChecklist).archived = false ∧
    (normalizeChecklist bareRawChecklist).archivedAt = none ∧
    (normalizeChecklist bareRawChecklist).items = [] :=
  ⟨(loadChecklists_tolerates_malformed.2.2.2.2.1 bareRawChecklist).2.2.1 rfl,
   (loadChecklists_tolerates_malformed.2.2.2.2.1 bareRawChecklist).2.2.2.1 rfl,
   (loadChecklists_tolerates_malformed.2.2.2.2.1 bareRawChecklist).2.2.2.2.1 rfl,
   (loadChecklists_tolerates_malformed.2.2.2.2.1 bareRawChecklist).2.2.2.2.2.1 rfl,
   (loadChecklists_tolerates_malformed.2.2.2.2.1 bareRawChecklist).2.2.2.2.2.2.1 rfl⟩

/-- A backend checklist item (server.ts): no deadline field. -/
structure BackendItem where
  id : String
  text : String
  done : Bool
deriving DecidableEq

/-- A backend checklist (server.ts). -/
structure BackendChecklist where
  id : String
  title : String
  items : List BackendItem
deriving DecidableEq

/-- A backend UserAccount (server.ts); passwordHash and syncCode are kept
as opaque strings. -/
structure UserAccount where
  id : String
  name : String
  email : String
  passwordHash : String
  checklists : List BackendChecklist
  createdAt : String
  updatedAt : String
  syncCode : String
deriving DecidableEq

/-- The DELETE /checklists/:id route handler (server.ts lines 312-321),
entered after requireAuth resolved the user: filters out every checklist
whose id matches the path parameter; when nothing was removed it answers
404 leaving the user content-unchanged, otherwise it stamps updatedAt
with the current ISO timestamp and answers 204. -/
def deleteChecklistEndpoint (user : UserAccount) (checklistId now : String) :
    UserAccount × Nat :=
  let remaining := user.checklists.filter fun list => list.id != checklistId
  if remaining.length = user.checklists.length then
    ({ user with checklists := remaining }, 404)
  else
    ({ user with checklists := remaining, updatedAt := now }, 204)

/-- C9: when the user owns a checklist with the requested id, the delete
endpoint answers 204, keeps exactly the checklists with a different id in
their original order, and stamps updatedAt; when no checklist has the id,
it answers 404 and leaves both the checklists array and updatedAt
unchanged. -/
theorem deleteChecklist_endpoint_spec (user : UserAccount) (checklistId now : String) :
    ((∃ list ∈ user.checklists, list.id = checklistId) →
      (deleteChecklistEndpoint user checklistId now).2 = 204 ∧
      (∀ list : BackendChecklist,
        list ∈ (deleteChecklistEndpoint user checklistId now).1.checklists ↔
          list ∈ user.checklists ∧ list.id ≠ checklistId) ∧
      (deleteChecklistEndpoint user checklistId now).1.checklists.Sublist user.checklists ∧
      (deleteChecklistEndpoint user checklistId now).1.updatedAt = now) ∧
    ((∀ list ∈ user.checklists, list.id ≠ checklistId) →
      (deleteChecklistEndpoint user checklistId now).2 = 404 ∧
      (deleteChecklistEndpoint user checklistId now).1.checklists = user.checklists ∧
      (deleteChecklistEndpoint user checklistId now).1.updatedAt = user.updatedAt) := by
  constructor
  · rintro ⟨w, hw, hid⟩
    have hlt : (user.checklists.filter fun list => list.id != checklistId).length
        < user.checklists.length := by
      refine List.length_filter_lt_length_iff_exists.mpr ⟨w, hw, ?_⟩
      simp [hid]
    have hcond : ¬ ((user.checklists.filter fun list => list.id != checklistId).length
        = user.checklists.length) := Nat.ne_of_lt hlt
    refine ⟨by simp [deleteChecklistEndpoint, hcond], fun list => ?_,
      by simp [deleteChecklistEndpoint, hcond, List.filter_sublist],
      by simp [deleteChecklistEndpoint, hcond]⟩
    simp [deleteChecklistEndpoint, hcond, List.mem_filter]
  · intro hnone
    have hself : user.checklists.filter (fun list => list.id != checklistId)
        = user.checklists := by
      refine List.filter_eq_self.mpr ?_
      intro l hl
      simp [hnone l hl]
    refine ⟨?_, ?_, ?_⟩ <;> simp [deleteChecklistEndpoint, hself]

/-- A backend user with two checklists, used as the C9 witness input. -/
def backendUserEx : UserAccount :=
  { id := "u", name := "N", email := "n@example.com", passwordHash := "h",
    checklists := [{ id := "c1", title := "A", items := [] },
                   { id := "c2", title := "B", items := [] }],
    createdAt := "2024-01-01T00:00:00.000Z", updatedAt := "2024-01-01T00:00:00.000Z",
    syncCode := "CHK-AAAA-BBBB" }

/-- Witness for C9: deleting the existing checklist c1 answers 204,
removes it, and stamps the new timestamp. -/
theorem deleteChecklist_endpoint_spec_witness :
    (deleteChecklistEndpoint backendUserEx "c1" "2024-06-01T00:00:00.000Z").2 = 204 ∧
    (∀ list : BackendChecklist,
      list ∈ (deleteChecklistEndpoint backendUserEx "c1" "2024-06-01T00:00:00.000Z").1.checklists ↔
        list ∈ backendUserEx.checklists ∧ list.id ≠ "c1") ∧
    (deleteChecklistEndpoint backendUserEx "c1"
      "2024-06-01T00:00:00.000Z").1.checklists.Sublist backendUserEx.checklists ∧
    (deleteChecklistEndpoint backendUserEx "c1" "2024-06-01T00:00:00.000Z").1.updatedAt
      = "2024-06-01T00:00:00.000Z" :=
  (deleteChecklist_endpoint_spec backendUserEx "c1" "2024-06-01T00:00:00.000Z").1
    ⟨{ id := "c1", title := "A", items := [] }, by decide, rfl⟩
